import Mathlib

/-!
Verification of the SEG-Y codec layer in `obspy/io/segy/core.py`
(repository `alemkhodadadi/obspy_seismo`).

The Python source is shallowly embedded: files and buffers are `List Nat`
(each element a byte value `< 256`), machine 16-bit signed decoding is done
with explicit arithmetic on `Nat`/`Int`, Python floats appearing in the
trace-count calculator are modelled by exact rationals (`ℚ`) — the concrete
inputs used in theorems below are chosen so that the float computation in
the source is exact there — and fallible Python code returns `Option` or an
explicit outcome type distinguishing a caught-and-converted failure from an
uncaught exception.
-/

/-- Byte order of a SEG-Y file, `'>'` (big) or `'<'` (little) in the source. -/
inductive ByteOrder where
  | big
  | little
deriving DecidableEq, Repr

/-- Two's-complement reinterpretation of a raw 16-bit value,
as performed by `struct.unpack('>h', …)` / `struct.unpack('<h', …)`. -/
def sint16 (raw : Nat) : Int :=
  if raw < 32768 then (raw : Int) else (raw : Int) - 65536

/-- `struct.unpack('>h', bytes([b0, b1]))[0]`: big-endian signed 16-bit decode. -/
def decodeI16BE (b0 b1 : Nat) : Int :=
  sint16 (b0 * 256 + b1)

/-- `struct.unpack('<h', bytes([b0, b1]))[0]`: little-endian signed 16-bit decode. -/
def decodeI16LE (b0 b1 : Nat) : Int :=
  sint16 (b1 * 256 + b0)

/-- `VALID_FORMATS = [1, 2, 3, 4, 5, 8]` (core.py line 31): the data sample
format codes the SEGY rev1 manual allows. -/
def VALID_FORMATS : List Int := [1, 2, 3, 4, 5, 8]

/-- The byte-order selection of `_is_segy` (core.py lines 85-100) on the two
bytes of the data-sample-format-code field: try big endian first, select big
if the decoded value is a valid format code, otherwise try little endian,
otherwise fail. -/
def detect_data_format_byte_order (b0 b1 : Nat) : Option ByteOrder :=
  if decodeI16BE b0 b1 ∈ VALID_FORMATS then some ByteOrder.big
  else if decodeI16LE b0 b1 ∈ VALID_FORMATS then some ByteOrder.little
  else none

/-- The extended-header-count read `struct.unpack('>h', binary_header[304:306])[0]`
used by `seismo_segy_remove_extended_headers` and
`seismo_get_segy_number_of_traces` (core.py lines 566, 608). -/
def extHeaderCount (binary_header : List Nat) : Int :=
  decodeI16BE (binary_header.getD 304 0) (binary_header.getD 305 0)

/-- `binary_header[304:306] = struct.pack('>h', 0)` (core.py line 613): the
400-byte binary header with the extended-header-count field overwritten by
two zero bytes and every other byte left as it was. -/
def patchBinaryHeader (binary_header : List Nat) : List Nat :=
  binary_header.take 304 ++ [0, 0] ++ binary_header.drop 306

/-- `seismo_segy_remove_extended_headers` (core.py lines 600-635) on the byte
content of the input file: read the 3200-byte textual header and the 400-byte
binary header, decode the extended-header count, and when it is positive
write textual header, patched binary header and everything after the skipped
`count * 3200` extended-header bytes to the output file; otherwise no output
file is produced (`none`). -/
def seismo_segy_remove_extended_headers (file : List Nat) : Option (List Nat) :=
  let textual_header := file.take 3200
  let binary_header := (file.drop 3200).take 400
  let num_extended_headers := extHeaderCount binary_header
  if 0 < num_extended_headers then
    some (textual_header ++ patchBinaryHeader binary_header
          ++ file.drop (3600 + num_extended_headers.toNat * 3200))
  else none

/-- Concrete 3200-byte textual header used to instantiate C2. -/
def c2_th : List Nat := List.replicate 3200 0

/-- Concrete 400-byte binary header whose extended-header-count field
(bytes 304-305, big endian) decodes to 1. -/
def c2_bh : List Nat := List.replicate 304 0 ++ [0, 1] ++ List.replicate 94 0

/-- Concrete 3200-byte extended-header block used to instantiate C2. -/
def c2_ext : List Nat := List.replicate 3200 32

/-- Concrete trace bytes used to instantiate C2. -/
def c2_tr : List Nat := [7, 7]

/-- Python `int(...)` applied to a float value: truncation toward zero,
computed as the truncating integer division of numerator by denominator.
The float expression `(10**6/dt)*60` of the source is modelled by the exact
rational; every concrete input used below makes the float computation exact. -/
def pyInt (q : ℚ) : Int :=
  q.num.tdiv (q.den : Int)

/-- `start = file.seek(3600 + (num_extended_headers*3200))` (core.py line 569):
the byte offset of the first trace record. -/
def segyTraceDataOffset (binary_header : List Nat) : Int :=
  3600 + extHeaderCount binary_header * 3200

/-- `seismo_get_segy_number_of_traces` (core.py lines 562-572): reads the
400-byte binary header, decodes the extended-header count (bytes 304-305) and
the sample interval `dt` (bytes 16-17, big endian), derives the per-trace
sample count as `ns = int((10**6/dt)*60)` (sixty seconds of data, a
Geospace-hardware assumption), and returns
`(file_size - start) / (240 + ns*4)` using Python's true division — the
result is a possibly fractional number, not floored. -/
def seismo_get_segy_number_of_traces (file : List Nat) : ℚ :=
  let binary_header := (file.drop 3200).take 400
  let dt := decodeI16BE (binary_header.getD 16 0) (binary_header.getD 17 0)
  let ns := pyInt ((10 ^ 6 : ℚ) / (dt : ℚ) * 60)
  let start := segyTraceDataOffset binary_header
  ((file.length : ℚ) - (start : ℚ)) / ((240 : ℚ) + (ns : ℚ) * 4)

/-- Concrete 3700-byte file for the C3 counterexample: sample interval
`dt = 20000` µs (bytes 3216-3217 = [78, 32]), zero extended headers, and 100
stray bytes after the 3600-byte header region. -/
def c3_file : List Nat :=
  List.replicate 3216 0 ++ [78, 32] ++ List.replicate 482 0

/-- Concrete 22240-byte file for the C3 amended-claim witness: `dt = 20000`
(so `ns = 3000`), extended-header count 2, and exactly one 12240-byte trace
record after the 10000-byte header region. -/
def c3w_file : List Nat :=
  List.replicate 3216 0 ++ [78, 32] ++ List.replicate 286 0 ++ [0, 2]
    ++ List.replicate 18734 0

/-- Outcome of calling a Python function that is documented to return a
bool: either a returned value, or an uncaught exception propagating to the
caller. -/
inductive PyOutcome where
  | ret (b : Bool)
  | raised
deriving DecidableEq, Repr

/-- `fp.read(2)` at absolute position `pos` of a seekable byte source:
returns up to two bytes — fewer (or none) past end of file — and never
raises. -/
def read2 (file : List Nat) (pos : Nat) : List Nat :=
  (file.drop pos).take 2

/-- `struct.unpack('%sh' % endian, buf)[0]`: the decoded signed 16-bit
value, or `none` (struct.error) when the buffer is not exactly 2 bytes. -/
def unpackI16 (endian : ByteOrder) (bytes : List Nat) : Option Int :=
  match bytes with
  | [b0, b1] =>
    some (match endian with
      | ByteOrder.big => decodeI16BE b0 b1
      | ByteOrder.little => decodeI16LE b0 b1)
  | _ => none

/-- `_is_segy` (core.py lines 55-126) on the byte content of the input.
The initial reads (all inside `try/except`) cannot raise on a byte source —
short reads return short buffers — so the `except Exception: return False`
path is taken only when there is nothing to read at all; the first unpack of
the data-sample-format-code sits in its own `try/except` returning `False`;
every later `struct.unpack` (lines 102-120) is outside any `try` block, so a
buffer of the wrong size there raises an uncaught `struct.error`
(`PyOutcome.raised`). -/
def _is_segy (file : List Nat) : PyOutcome :=
  match read2 file 3224 with
  | [b0, b1] =>
    match detect_data_format_byte_order b0 b1 with
    | none => PyOutcome.ret false
    | some endian =>
      match unpackI16 endian (read2 file 3216), unpackI16 endian (read2 file 3220),
          unpackI16 endian (read2 file 3212), unpackI16 endian (read2 file 3214) with
      | some sample_interval, some samples_per_trace,
          some number_of_data_traces, some number_of_auxiliary_traces =>
        match unpackI16 endian (read2 file 3500) with
        | none => PyOutcome.raised
        | some format_number =>
          if format_number = 0x0000 ∨ format_number = 0x0100
              ∨ format_number = 0x0010 ∨ format_number = 0x0001 then
            match unpackI16 endian (read2 file 3502),
                unpackI16 endian (read2 file 3504) with
            | some fixed_length, some extended_number =>
              if sample_interval ≤ 0 ∨ samples_per_trace ≤ 0
                  ∨ number_of_data_traces < 0 ∨ number_of_auxiliary_traces < 0
                  ∨ fixed_length < 0 ∨ extended_number < 0 then
                PyOutcome.ret false
              else PyOutcome.ret true
            | _, _ => PyOutcome.raised
          else PyOutcome.ret false
      | _, _, _, _ => PyOutcome.raised
  | _ => PyOutcome.ret false

/-- Concrete 3300-byte file for C5: long enough that every read at offsets
3212-3225 returns 2 bytes, with a valid big-endian data-sample-format code
(bytes 3224-3225 = [0, 1]), but too short to supply 2 bytes at offset 3500. -/
def c5_file : List Nat :=
  List.replicate 3224 0 ++ [0, 1] ++ List.replicate 74 0

/-- The byte predicate of the extended-header scanner (core.py line 662):
`32 <= byte <= 126 or byte == 10 or byte == 13` — printable ASCII or LF/CR. -/
def isTextByte (b : Nat) : Bool :=
  (32 ≤ b && b ≤ 126) || b == 10 || b == 13

/-- `all(32 <= byte <= 126 or byte == 10 or byte == 13 for byte in block)`
(core.py line 662). -/
def isTextBlock (block : List Nat) : Bool :=
  block.all isTextByte

/-- The scanner loop of `seismo_segy_read_extended_textual_headers`
(core.py lines 653-666), on the bytes after position 3600: read 3200-byte
blocks; an empty read ends the loop, an all-text block is accepted and its
length added to `bytesize`, and the first non-text block ends the loop.
The fuel argument only bounds the iteration count; every iteration consumes
a nonempty block, so fuel equal to the length of the remaining bytes (as
supplied by `scanBlocks`) never runs out. Returns (accepted raw blocks,
bytesize). -/
def scanBlocksAux : Nat → List Nat → List (List Nat) × Nat
  | 0, _ => ([], 0)
  | fuel + 1, rest =>
    let block := rest.take 3200
    if block = [] then ([], 0)
    else if isTextBlock block then
      let r := scanBlocksAux fuel (rest.drop 3200)
      (block :: r.1, block.length + r.2)
    else ([], 0)

/-- The scanner loop with sufficient fuel. -/
def scanBlocks (rest : List Nat) : List (List Nat) × Nat :=
  scanBlocksAux rest.length rest

/-- `block.decode('ascii')` on bytes that passed the text test: byte-wise
conversion to characters. -/
def decodeAscii (l : List Nat) : List Char :=
  l.map Char.ofNat

/-- Python's `str.strip()` whitespace set (space, tab, LF, CR, VT, FF). -/
def isPySpace (c : Char) : Bool :=
  c == ' ' || c == '\t' || c == '\n' || c == '\r' || c == '\x0b' || c == '\x0c'

/-- Python `s.strip()`: drop leading and trailing whitespace. -/
def pyStrip (s : List Char) : List Char :=
  ((s.dropWhile isPySpace).reverse.dropWhile isPySpace).reverse

/-- Python `s.replace("\r\n", "\n")`: left-to-right, non-overlapping. -/
def replaceCRLF : List Char → List Char
  | [] => []
  | '\x0d' :: '\x0a' :: rest => '\x0a' :: replaceCRLF rest
  | c :: rest => c :: replaceCRLF rest

/-- `seismo_segy_read_extended_textual_headers` (core.py lines 638-671):
skip the first 3600 bytes, scan 3200-byte blocks while they are text,
store each accepted block decoded and stripped, then return the
concatenation of the stored strings with CRLF normalized to LF and a
newline appended after each — a single string; the `bytesize` local is
computed but not part of the return value. -/
def seismo_segy_read_extended_textual_headers (file : List Nat) : List Char :=
  let headers := (scanBlocks (file.drop 3600)).1.map (fun b => pyStrip (decodeAscii b))
  headers.foldl (fun acc h => acc ++ replaceCRLF h ++ ['\x0a']) []

/-- The `bytesize` local of `seismo_segy_read_extended_textual_headers`
(core.py lines 648, 664): the count of bytes consumed by accepted blocks.
It is dead code — never returned. -/
def extendedHeadersByteSize (file : List Nat) : Nat :=
  (scanBlocks (file.drop 3600)).2

/-- A concrete all-text 3200-byte block (letter `A` throughout). -/
def textBlockA : List Nat := List.replicate 3200 65

/-- A concrete 3200-byte block containing byte 0x00 (at every position). -/
def zeroBlock : List Nat := List.replicate 3200 0

/-- C7 counterexample file 1: 100 trailing space bytes after the 3600-byte
header region; the scanner accepts them as one (short) text block. -/
def c7_fileB : List Nat := List.replicate 3600 0 ++ List.replicate 100 32

/-- C7 counterexample file 2: 200 trailing space bytes after the 3600-byte
header region. -/
def c7_fileC : List Nat := List.replicate 3600 0 ++ List.replicate 200 32

/-- One entry of the trace-header field table: byte length, field name and
start offset within the 240-byte trace header. -/
structure FieldSpec where
  length : Nat
  name : String
  start : Nat
deriving DecidableEq, Repr

/-- Modelled from the spec: `TRACE_HEADER_FORMAT` lives in
`obspy/io/segy/header.py`, which is not part of this repository's source;
the spec describes it as the declarative offset/length table of the 240-byte
trace header (~80 named fields). The entries here are the fields this
repository's code reads by name (core.py lines 306, 1127, 1134-1150, 1261),
with offsets and lengths matching the byte positions listed in
`seismo_read_trace_headers` (core.py lines 365-453). -/
def TRACE_HEADER_FORMAT : List FieldSpec :=
  [⟨4, "trace_sequence_number_within_line", 0⟩,
   ⟨4, "trace_sequence_number_within_segy_file", 4⟩,
   ⟨4, "original_field_record_number", 8⟩,
   ⟨2, "trace_identification_code", 28⟩,
   ⟨2, "number_of_samples_in_this_trace", 114⟩,
   ⟨2, "sample_interval_in_ms_for_this_trace", 116⟩,
   ⟨2, "year_data_recorded", 156⟩,
   ⟨2, "day_of_year", 158⟩,
   ⟨2, "hour_of_day", 160⟩,
   ⟨2, "minute_of_hour", 162⟩,
   ⟨2, "second_of_minute", 164⟩,
   ⟨2, "source_measurement_unit", 230⟩]

/-- Modelled from the spec: `TRACE_HEADER_KEYS` (header.py) is the list of
field names of `TRACE_HEADER_FORMAT`, in table order, so looking a name up
by index in the keys and taking the entry at that index in the format table
is finding the first entry with that name. -/
def TRACE_HEADER_KEYS : List String :=
  TRACE_HEADER_FORMAT.map FieldSpec.name

/-- Modelled from the spec: `obspy.io.segy.util.unpack_header_value` is not
part of this repository's source; per the spec (§4.3) a field decode
interprets `length` bytes at `offset` as a two's-complement integer of the
given width in the given byte order. -/
def unpack_header_value (endian : ByteOrder) (bytes : List Nat) : Int :=
  let ordered := match endian with
    | ByteOrder.big => bytes
    | ByteOrder.little => bytes.reverse
  let raw := ordered.foldl (fun acc b => acc * 256 + b) 0
  let m := 256 ^ bytes.length
  if raw < m / 2 then (raw : Int) else (raw : Int) - (m : Int)

/-- `LazyTraceHeaderAttribDict` (core.py lines 1290-1336): the retained raw
header buffer, its byte order, and the instance attributes holding fields
already decoded (the cache, `self.__dict__` minus the two readonly slots). -/
structure LazyTraceHeaderAttribDict where
  unpacked_header : List Nat
  endian : ByteOrder
  attribs : List (String × Int)
deriving DecidableEq, Repr

/-- `name in self.__dict__` / `self.__dict__[name]`: lookup in the cache. -/
def lookupAttrib : List (String × Int) → String → Option Int
  | [], _ => none
  | (k, v) :: rest, name => if k = name then some v else lookupAttrib rest name

/-- `LazyTraceHeaderAttribDict.__getitem__` (core.py lines 1307-1326):
return the cached value if present; otherwise find the field in the schema
(an unknown name raises AttributeError, `none`), decode its bytes from the
raw buffer, store the value in the cache and return it. The third component
counts how many times the raw buffer was read. The index-then-lookup of the
source (`TRACE_HEADER_KEYS.index(name)`, `TRACE_HEADER_FORMAT[index]`) is
the first table entry whose name is `name` because `TRACE_HEADER_KEYS` is
the name column of the table. -/
def lazyGetItem (h : LazyTraceHeaderAttribDict) (name : String) :
    Option (Int × LazyTraceHeaderAttribDict × Nat) :=
  match lookupAttrib h.attribs name with
  | some v => some (v, h, 0)
  | none =>
    match TRACE_HEADER_FORMAT.find? (fun spec => spec.name == name) with
    | none => none
    | some spec =>
      let str := (h.unpacked_header.drop spec.start).take spec.length
      let v := unpack_header_value h.endian str
      some (v, ⟨h.unpacked_header, h.endian, (spec.name, v) :: h.attribs⟩, 1)

/-- Concrete lazy header view with an all-zero 240-byte buffer and an empty
cache, used to instantiate C4. -/
def c4_header : LazyTraceHeaderAttribDict :=
  ⟨List.replicate 240 0, ByteOrder.big, []⟩

/-- `c4_header` after the first access to `source_measurement_unit`. -/
def c4_header_after : LazyTraceHeaderAttribDict :=
  ⟨List.replicate 240 0, ByteOrder.big, [("source_measurement_unit", 0)]⟩


/-- The numpy dtypes relevant to the SEG-Y data encodings handled by
`_write_segy` (core.py docstring lines 851-867). -/
inductive Dtype where
  | float32
  | int32
  | int16
  | int8
deriving DecidableEq, Repr

/-- Modelled from the spec: `DATA_SAMPLE_FORMAT_CODE_DTYPE` lives in
`obspy/io/segy/header.py`, which is not part of this repository's source.
Per the `_write_segy` docstring (core.py lines 851-867) and the spec's
format-code table (1 -> 4-byte IBM float32, 2 -> int32, 3 -> int16,
5 -> IEEE float32, 8 -> 1-byte int); any other code has no dtype (a
`KeyError` at the lookup on line 930). -/
def DATA_SAMPLE_FORMAT_CODE_DTYPE (code : Int) : Option Dtype :=
  if code = 1 then some Dtype.float32
  else if code = 2 then some Dtype.int32
  else if code = 3 then some Dtype.int16
  else if code = 5 then some Dtype.float32
  else if code = 8 then some Dtype.int8
  else none

/-- `MAX_INTERVAL_IN_SECONDS = 0.065535` (core.py line 35), the largest
sample interval expressible in the 16-bit microsecond field, modelled as the
exact rational the float literal denotes up to representation error. -/
def MAX_INTERVAL_IN_SECONDS : ℚ := 65535 / 1000000

/-- `MAX_NUMBER_OF_SAMPLES = 32767` (core.py line 38), the largest int16. -/
def MAX_NUMBER_OF_SAMPLES : Nat := 32767

/-- The parts of an input trace that `_write_segy`'s validation reads:
sample count, data dtype and sample interval (`trace.stats.delta`). -/
structure TraceIn where
  npts : Nat
  dtype : Dtype
  delta : ℚ
deriving DecidableEq

/-- The parts of the input stream `_write_segy`'s encoding inference reads:
the traces and, when `stream.stats.binary_file_header` exists, its
`data_sample_format_code`. -/
structure StreamIn where
  traces : List TraceIn
  binary_file_header_format_code : Option Int
deriving DecidableEq

/-- The data-encoding inference of `_write_segy` (core.py lines 910-919): an
explicit argument wins; otherwise the binary file header's format code when
the stream has one; otherwise 1. (The `stream.stats.data_encoding` branch on
line 911-912 never survives: the following if/else on lines 913-919 always
overwrites it.) -/
def chosenEncoding (s : StreamIn) (data_encoding : Option Int) : Int :=
  match data_encoding with
  | some d => d
  | none =>
    match s.binary_file_header_format_code with
    | some c => c
    | none => 1

/-- The validation failures `_write_segy` can raise before writing:
`ValueError` for oversized traces (line 903), `SEGYCoreWritingError` for a
bad explicit encoding (line 908) or dtype mismatch (line 941), `KeyError`
for a code missing from the dtype table (line 930), and
`SEGYSampleIntervalError` for an oversized sample interval (line 949). -/
inductive WriteError where
  | tooManySamples
  | invalidEncoding
  | encodingLookupFailed
  | dtypeMismatch
  | intervalTooLarge
deriving DecidableEq, Repr

/-- Outcome of `_write_segy`: an error raised during validation — before
any bytes are written — or reaching `segy_file.write(filename, ...)`
(line 1026), the only statement that creates or modifies the output file. -/
inductive WriteOutcome where
  | error (e : WriteError)
  | wrote
deriving DecidableEq, Repr

/-- The per-trace validation loop of `_write_segy` (core.py lines 932-949):
for each trace in order, raise on a dtype mismatch with the chosen encoding,
then on a sample interval above `MAX_INTERVAL_IN_SECONDS`. -/
def validateTraces (valid_dtype : Dtype) : List TraceIn → Option WriteError
  | [] => none
  | t :: rest =>
    if t.dtype ≠ valid_dtype then some WriteError.dtypeMismatch
    else if MAX_INTERVAL_IN_SECONDS < t.delta then some WriteError.intervalTooLarge
    else validateTraces valid_dtype rest

/-- `_write_segy` (core.py lines 837-1026), its validation structure: the
oversized-trace loop (lines 899-903), the explicit-encoding check (lines
906-908), encoding inference, the dtype-table lookup (line 930), the
per-trace dtype and interval checks (lines 932-949), and only then — after
header and trace construction, which raises nothing — the single write call
(line 1026), modelled as `WriteOutcome.wrote`. -/
def _write_segy (s : StreamIn) (data_encoding : Option Int) : WriteOutcome :=
  if s.traces.any (fun t => decide (MAX_NUMBER_OF_SAMPLES < t.npts)) then
    WriteOutcome.error WriteError.tooManySamples
  else if data_encoding.any (fun d => decide (d ∉ VALID_FORMATS)) then
    WriteOutcome.error WriteError.invalidEncoding
  else
    match DATA_SAMPLE_FORMAT_CODE_DTYPE (chosenEncoding s data_encoding) with
    | none => WriteOutcome.error WriteError.encodingLookupFailed
    | some valid_dtype =>
      match validateTraces valid_dtype s.traces with
      | some e => WriteOutcome.error e
      | none => WriteOutcome.wrote

/-- Concrete stream with one 40000-sample trace, used to instantiate C8. -/
def c8_stream : StreamIn := ⟨[⟨40000, Dtype.float32, 0⟩], none⟩

/-- A store of byte buffers addressed by reference, making Python object
aliasing explicit: two names alias exactly when they hold the same
reference. -/
structure BufferStore where
  bufs : List (List Nat)
deriving DecidableEq, Repr

/-- Observe the buffer a reference points to. -/
def readBuf (st : BufferStore) (r : Nat) : List Nat :=
  st.bufs.getD r []

/-- Mutate the buffer a reference points to. -/
def writeBuf (st : BufferStore) (r : Nat) (b : List Nat) : BufferStore :=
  ⟨st.bufs.set r b⟩

/-- A lazy trace-header view with its raw buffer held by reference in a
`BufferStore`, plus the byte-order marker and the decoded-field cache. -/
structure LazyHeaderObj where
  headerRef : Nat
  endian : ByteOrder
  attribs : List (String × Int)
deriving DecidableEq, Repr

/-- `LazyTraceHeaderAttribDict.__deepcopy__` (core.py lines 1330-1336):
construct a new instance from `deepcopy(unpacked_header)` — a freshly
allocated buffer with the same bytes — `deepcopy(endian)`, and a fresh dict
of the non-readonly attributes (the cache entries, immutable ints). -/
def lazyHeaderDeepcopy (st : BufferStore) (o : LazyHeaderObj) :
    BufferStore × LazyHeaderObj :=
  (⟨st.bufs ++ [readBuf st o.headerRef]⟩,
   ⟨st.bufs.length, o.endian, o.attribs⟩)

/-- Concrete one-buffer store used to instantiate C9. -/
def c9_store : BufferStore := ⟨[List.replicate 240 7]⟩

/-- Concrete lazy header view over that buffer with one cached field. -/
def c9_obj : LazyHeaderObj := ⟨0, ByteOrder.big, [("day_of_year", 5)]⟩

/-- The part of an obspy trace that the component splitter reads:
`trace.stats.segy.trace_header.source_measurement_unit`. -/
structure ObsPyTrace where
  source_measurement_unit : Int
deriving DecidableEq, Repr

/-- One iteration of the component loop of `seismo_read_segy_` (core.py
lines 305-312): append the trace to the N, E or Z stream when its
`source_measurement_unit` is 512, 768 or 1024 respectively, else drop it. -/
def splitStep (acc : List ObsPyTrace × List ObsPyTrace × List ObsPyTrace)
    (trace : ObsPyTrace) : List ObsPyTrace × List ObsPyTrace × List ObsPyTrace :=
  if trace.source_measurement_unit = 512 then (acc.1 ++ [trace], acc.2.1, acc.2.2)
  else if trace.source_measurement_unit = 768 then (acc.1, acc.2.1 ++ [trace], acc.2.2)
  else if trace.source_measurement_unit = 1024 then (acc.1, acc.2.1, acc.2.2 ++ [trace])
  else acc

/-- The whole component loop: fold `splitStep` over the traces starting
from three empty streams. -/
def splitComponents (stream : List ObsPyTrace) :
    List ObsPyTrace × List ObsPyTrace × List ObsPyTrace :=
  stream.foldl splitStep ([], [], [])

/-- `return [N_stream, E_stream, Z_stream]` (core.py line 315): the value
`seismo_read_segy_` returns, as a function of the traces read from the file
(the reading itself delegates to `segy._read_segy`, outside this module). -/
def seismo_read_segy_result (stream : List ObsPyTrace) : List (List ObsPyTrace) :=
  [(splitComponents stream).1, (splitComponents stream).2.1,
   (splitComponents stream).2.2]

/-- Concrete four-trace stream, one per component and one with an
unrecognized `source_measurement_unit`, used to instantiate C10. -/
def c10_stream : List ObsPyTrace := [⟨512⟩, ⟨99⟩, ⟨768⟩, ⟨1024⟩]


theorem mem_VALID_FORMATS_iff (v : Int) :
    v ∈ VALID_FORMATS ↔ v = 1 ∨ v = 2 ∨ v = 3 ∨ v = 4 ∨ v = 5 ∨ v = 8 := by
  simp [VALID_FORMATS]

theorem be_valid_shape (b0 b1 : Nat) (hb0 : b0 < 256) (hb1 : b1 < 256)
    (h : decodeI16BE b0 b1 ∈ VALID_FORMATS) :
    b0 = 0 ∧ 1 ≤ b1 ∧ b1 ≤ 8 := by
  rw [mem_VALID_FORMATS_iff] at h
  unfold decodeI16BE sint16 at h
  by_cases hlt : b0 * 256 + b1 < 32768
  · rw [if_pos hlt] at h
    omega
  · rw [if_neg hlt] at h
    omega

theorem le_of_be_valid (b0 b1 : Nat) (hb0 : b0 < 256) (hb1 : b1 < 256)
    (h : decodeI16BE b0 b1 ∈ VALID_FORMATS) :
    decodeI16LE b0 b1 ∉ VALID_FORMATS := by
  obtain ⟨h0, h1, h8⟩ := be_valid_shape b0 b1 hb0 hb1 h
  subst h0
  rw [mem_VALID_FORMATS_iff]
  unfold decodeI16LE sint16
  have hlt : b1 * 256 + 0 < 32768 := by omega
  rw [if_pos hlt]
  omega

/-- C1: the `_is_segy` byte-order detector tries big endian first (selecting
big when the decoded format code is in {1,2,3,4,5,8}), then little endian,
and fails when neither decode is valid; moreover no 2-byte buffer is valid
under both byte orders simultaneously, so a buffer valid under exactly one
order is detected with that order and a buffer valid under neither order
fails detection. -/
theorem detect_byte_order_exclusive (b0 b1 : Nat) (hb0 : b0 < 256) (hb1 : b1 < 256) :
    ¬(decodeI16BE b0 b1 ∈ VALID_FORMATS ∧ decodeI16LE b0 b1 ∈ VALID_FORMATS)
    ∧ (decodeI16BE b0 b1 ∈ VALID_FORMATS →
        detect_data_format_byte_order b0 b1 = some ByteOrder.big)
    ∧ (decodeI16LE b0 b1 ∈ VALID_FORMATS →
        detect_data_format_byte_order b0 b1 = some ByteOrder.little)
    ∧ (decodeI16BE b0 b1 ∉ VALID_FORMATS → decodeI16LE b0 b1 ∉ VALID_FORMATS →
        detect_data_format_byte_order b0 b1 = none) := by
  refine ⟨?_, ?_, ?_, ?_⟩
  · rintro ⟨hbe, hle⟩
    exact le_of_be_valid b0 b1 hb0 hb1 hbe hle
  · intro hbe
    simp [detect_data_format_byte_order, hbe]
  · intro hle
    have hbe : decodeI16BE b0 b1 ∉ VALID_FORMATS := by
      intro hbe
      exact le_of_be_valid b0 b1 hb0 hb1 hbe hle
    simp [detect_data_format_byte_order, hbe, hle]
  · intro hbe hle
    simp [detect_data_format_byte_order, hbe, hle]

/-- Witness for C1 at the concrete buffer `[0, 1]` (big-endian code 1):
detected as big endian and not simultaneously valid as little endian. -/
theorem detect_byte_order_exclusive_witness :
    ¬(decodeI16BE 0 1 ∈ VALID_FORMATS ∧ decodeI16LE 0 1 ∈ VALID_FORMATS)
    ∧ (decodeI16BE 0 1 ∈ VALID_FORMATS →
        detect_data_format_byte_order 0 1 = some ByteOrder.big)
    ∧ (decodeI16LE 0 1 ∈ VALID_FORMATS →
        detect_data_format_byte_order 0 1 = some ByteOrder.little)
    ∧ (decodeI16BE 0 1 ∉ VALID_FORMATS → decodeI16LE 0 1 ∉ VALID_FORMATS →
        detect_data_format_byte_order 0 1 = none) :=
  detect_byte_order_exclusive 0 1 (by decide) (by decide)

theorem getD_take_of_lt (l : List Nat) (n i d : Nat) (h : i < n) :
    (l.take n).getD i d = l.getD i d := by
  simp only [List.getD_eq_getElem?_getD, List.getElem?_take_of_lt h]

theorem getD_drop_add (l : List Nat) (n i d : Nat) :
    (l.drop n).getD i d = l.getD (n + i) d := by
  simp only [List.getD_eq_getElem?_getD, List.getElem?_drop]

theorem patch_getD (bh : List Nat) (hbh : bh.length = 400) (i : Nat) :
    (patchBinaryHeader bh).getD i 0 =
      if i = 304 ∨ i = 305 then 0 else bh.getD i 0 := by
  have htake : (bh.take 304).length = 304 := by
    simp [hbh]
  have hlen2 : (bh.take 304 ++ [0, 0]).length = 306 := by
    simp [htake]
  unfold patchBinaryHeader
  rcases Nat.lt_or_ge i 306 with hlt | hge
  · rw [List.getD_append _ _ _ _ (by omega)]
    rcases Nat.lt_or_ge i 304 with hlt2 | hge2
    · rw [if_neg (by omega)]
      rw [List.getD_append _ _ _ _ (by omega)]
      exact getD_take_of_lt bh 304 i 0 hlt2
    · rw [if_pos (by omega)]
      rw [List.getD_append_right _ _ _ _ (by omega), htake]
      interval_cases i
      · norm_num
      · norm_num
  · rw [if_neg (by omega)]
    rw [List.getD_append_right _ _ _ _ (by omega), hlen2]
    rw [getD_drop_add]
    have hi : 306 + (i - 306) = i := by omega
    rw [hi]

theorem patchBinaryHeader_count (bh : List Nat) (hbh : bh.length = 400) :
    extHeaderCount (patchBinaryHeader bh) = 0 := by
  unfold extHeaderCount
  rw [patch_getD bh hbh 304, patch_getD bh hbh 305]
  norm_num
  decide

theorem patchBinaryHeader_preserves (bh : List Nat) (hbh : bh.length = 400)
    (i : Nat) (_hi : i < 400) (h304 : i ≠ 304) (h305 : i ≠ 305) :
    (patchBinaryHeader bh).getD i 0 = bh.getD i 0 := by
  rw [patch_getD bh hbh i]
  rw [if_neg (by omega)]

theorem patchBinaryHeader_length (bh : List Nat) (hbh : bh.length = 400) :
    (patchBinaryHeader bh).length = 400 := by
  simp [patchBinaryHeader, hbh]

/-- C2: on a file laid out as textual header (3200 bytes) ++ binary header
(400 bytes) ++ N extended headers (N * 3200 bytes) ++ trace records, with the
extended-header-count field decoding to N > 0, `seismo_segy_remove_extended_headers`
produces exactly textual header ++ patched binary header ++ trace records:
the patched count field decodes to 0, the output is N * 3200 bytes shorter
than the input, the textual header and all binary-header bytes outside the
count field are copied verbatim, and the trace bytes are byte-identical. -/
theorem remove_extended_headers_spec
    (th bh ext tr : List Nat) (N : Nat)
    (hth : th.length = 3200) (hbh : bh.length = 400)
    (hext : ext.length = N * 3200)
    (hcount : extHeaderCount bh = (N : Int))
    (hN : 0 < N) :
    seismo_segy_remove_extended_headers (th ++ (bh ++ (ext ++ tr)))
      = some (th ++ (patchBinaryHeader bh ++ tr))
    ∧ extHeaderCount (patchBinaryHeader bh) = 0
    ∧ (th ++ (patchBinaryHeader bh ++ tr)).length
        = (th ++ (bh ++ (ext ++ tr))).length - N * 3200
    ∧ (∀ i, i < 400 → i ≠ 304 → i ≠ 305 →
        (patchBinaryHeader bh).getD i 0 = bh.getD i 0) := by
  have htake : (th ++ (bh ++ (ext ++ tr))).take 3200 = th := List.take_left' hth
  have hdrop : (th ++ (bh ++ (ext ++ tr))).drop 3200 = bh ++ (ext ++ tr) :=
    List.drop_left' hth
  have hbhtake : (bh ++ (ext ++ tr)).take 400 = bh := List.take_left' hbh
  have hassoc : th ++ (bh ++ (ext ++ tr)) = ((th ++ bh) ++ ext) ++ tr := by
    simp [List.append_assoc]
  have hprefix_len : ((th ++ bh) ++ ext).length = 3600 + N * 3200 := by
    simp [hth, hbh, hext]; omega
  have hdropall : (th ++ (bh ++ (ext ++ tr))).drop (3600 + N * 3200) = tr := by
    rw [hassoc]
    exact List.drop_left' hprefix_len
  refine ⟨?_, patchBinaryHeader_count bh hbh, ?_,
    fun i hi h304 h305 => patchBinaryHeader_preserves bh hbh i hi h304 h305⟩
  · unfold seismo_segy_remove_extended_headers
    simp only [htake, hdrop, hbhtake, hcount]
    rw [if_pos (by exact_mod_cast hN)]
    rw [Int.toNat_natCast, hdropall]
    simp [List.append_assoc]
  · have hp := patchBinaryHeader_length bh hbh
    simp [hth, hbh, hext, hp]
    omega

/-- Witness for C2: a concrete file with one extended header (N = 1). -/
theorem remove_extended_headers_spec_witness :
    seismo_segy_remove_extended_headers (c2_th ++ (c2_bh ++ (c2_ext ++ c2_tr)))
      = some (c2_th ++ (patchBinaryHeader c2_bh ++ c2_tr))
    ∧ extHeaderCount (patchBinaryHeader c2_bh) = 0
    ∧ (c2_th ++ (patchBinaryHeader c2_bh ++ c2_tr)).length
        = (c2_th ++ (c2_bh ++ (c2_ext ++ c2_tr))).length - 1 * 3200
    ∧ (∀ i, i < 400 → i ≠ 304 → i ≠ 305 →
        (patchBinaryHeader c2_bh).getD i 0 = c2_bh.getD i 0) :=
  remove_extended_headers_spec c2_th c2_bh c2_ext c2_tr 1
    (by rw [c2_th, List.length_replicate])
    (by rw [c2_bh]; simp only [List.length_append, List.length_replicate,
      List.length_cons, List.length_nil])
    (by rw [c2_ext, List.length_replicate])
    (by decide) (by decide)

set_option maxRecDepth 40000 in
/-- C3 counterexample: on a file whose binary header declares zero extended
headers and sample interval 20000 µs, with 100 bytes after the 3600-byte
header region, `seismo_get_segy_number_of_traces` reports the fractional
value 5/612, while the floor of the same quotient is 0 — the calculator
does not floor its division, refuting the claim as stated. -/
theorem number_of_traces_not_floor_counterexample :
    seismo_get_segy_number_of_traces c3_file = 5 / 612
    ∧ (⌊((3700 : ℚ) - 3600) / (240 + 3000 * 4)⌋ : Int) = 0
    ∧ (5 / 612 : ℚ) ≠ 0 := by
  refine ⟨?_, ?_, by norm_num⟩
  · have hdt0 : ((c3_file.drop 3200).take 400).getD 16 0 = 78 := by decide
    have hdt1 : ((c3_file.drop 3200).take 400).getD 17 0 = 32 := by decide
    have hoff : segyTraceDataOffset ((c3_file.drop 3200).take 400) = 3600 := by decide
    have hlen : c3_file.length = 3700 := by
      rw [c3_file]
      simp only [List.length_append, List.length_replicate, List.length_cons,
        List.length_nil]
    simp only [seismo_get_segy_number_of_traces]
    rw [hdt0, hdt1, hoff, hlen]
    have hdt : decodeI16BE 78 32 = 20000 := by decide
    rw [hdt]
    have harg : ((10 : ℚ) ^ 6) / (((20000 : Int) : ℚ)) * 60 = 3000 := by norm_num
    rw [harg]
    have hns : pyInt (3000 : ℚ) = 3000 := by decide
    rw [hns]
    norm_num
  · have h : ((3700 : ℚ) - 3600) / (240 + 3000 * 4) = 5 / 612 := by norm_num
    rw [h, Int.floor_eq_zero_iff]
    constructor <;> norm_num

/-- C3 (amended): the calculator computes
`trace_data_offset = 3600 + extended_header_count * 3200` (10000 when the
count is 2), derives the per-trace sample count from the sample-interval
field as `ns = int((10**6/dt)*60)` (3000 when `dt = 20000`), and reports the
exact — unfloored — quotient `(file_size - offset) / (240 + ns*4)`, which
equals k exactly when the file holds exactly k whole trace records. -/
theorem number_of_traces_amended (file : List Nat) (k : Nat)
    (hext0 : ((file.drop 3200).take 400).getD 304 0 = 0)
    (hext1 : ((file.drop 3200).take 400).getD 305 0 = 2)
    (hdt0 : ((file.drop 3200).take 400).getD 16 0 = 78)
    (hdt1 : ((file.drop 3200).take 400).getD 17 0 = 32)
    (hlen : file.length = 10000 + k * 12240) :
    segyTraceDataOffset ((file.drop 3200).take 400) = 10000
    ∧ seismo_get_segy_number_of_traces file = k := by
  have hcount : extHeaderCount ((file.drop 3200).take 400) = 2 := by
    unfold extHeaderCount
    rw [hext0, hext1]
    decide
  have hoffset : segyTraceDataOffset ((file.drop 3200).take 400) = 10000 := by
    unfold segyTraceDataOffset
    rw [hcount]
    decide
  refine ⟨hoffset, ?_⟩
  simp only [seismo_get_segy_number_of_traces]
  rw [hdt0, hdt1, hoffset, hlen]
  have hdt : decodeI16BE 78 32 = 20000 := by decide
  rw [hdt]
  have harg : ((10 : ℚ) ^ 6) / (((20000 : Int) : ℚ)) * 60 = 3000 := by norm_num
  rw [harg]
  have hns : pyInt (3000 : ℚ) = 3000 := by decide
  rw [hns]
  push_cast
  rw [show ((10000 : ℚ) + (k : ℚ) * 12240 - 10000) = (k : ℚ) * 12240 by ring]
  rw [show ((240 : ℚ) + 3000 * 4) = 12240 by norm_num]
  rw [mul_div_assoc]
  norm_num

set_option maxRecDepth 40000 in
/-- Witness for C3 (amended) at a concrete file with k = 1 trace record. -/
theorem number_of_traces_amended_witness :
    segyTraceDataOffset ((c3w_file.drop 3200).take 400) = 10000
    ∧ seismo_get_segy_number_of_traces c3w_file = ((1 : Nat) : ℚ) :=
  number_of_traces_amended c3w_file 1
    (by decide) (by decide) (by decide) (by decide)
    (by rw [c3w_file]; simp only [List.length_append, List.length_replicate,
      List.length_cons, List.length_nil])

set_option maxRecDepth 40000 in
/-- C5 (code bug): on a file long enough for the reads at offset 3212 to
succeed, with a valid big-endian data-sample-format code, but too short to
supply 2 bytes at offset 3500, `_is_segy` does not return `False`: the
`struct.unpack` of the format-revision field at line 109 sits outside every
`try` block and its `struct.error` escapes to the caller. -/
theorem is_segy_raises_on_truncated_revision_field :
    _is_segy c5_file = PyOutcome.raised := by
  decide

theorem flatten_length_uniform (blocks : List (List Nat))
    (hlen : ∀ b ∈ blocks, b.length = 3200) :
    blocks.flatten.length = 3200 * blocks.length := by
  induction blocks with
  | nil => simp
  | cons b bs ih =>
    simp only [List.flatten_cons, List.length_append, List.length_cons]
    rw [hlen b (by simp), ih (fun x hx => hlen x (by simp [hx]))]
    ring

theorem scanBlocksAux_spec (blocks : List (List Nat)) :
    ∀ (fuel : Nat) (rest : List Nat),
      blocks.length ≤ fuel →
      (∀ b ∈ blocks, b.length = 3200) →
      (∀ b ∈ blocks, isTextBlock b = true) →
      (rest.take 3200 = [] ∨ isTextBlock (rest.take 3200) = false) →
      scanBlocksAux fuel (blocks.flatten ++ rest) = (blocks, 3200 * blocks.length) := by
  induction blocks with
  | nil =>
    intro fuel rest _ _ _ hstop
    cases fuel with
    | zero => simp [scanBlocksAux]
    | succ f =>
      simp only [List.flatten_nil, List.nil_append, scanBlocksAux]
      rcases hstop with hnil | hbad
      · rw [if_pos hnil]
        simp
      · by_cases hnil : rest.take 3200 = []
        · rw [if_pos hnil]
          simp
        · rw [if_neg hnil, if_neg (by simp [hbad])]
          simp
  | cons b bs ih =>
    intro fuel rest hfuel hlen htext hstop
    cases fuel with
    | zero => simp at hfuel
    | succ f =>
      have hb : b.length = 3200 := hlen b (by simp)
      have hbs_len : ∀ x ∈ bs, x.length = 3200 := fun x hx => hlen x (by simp [hx])
      have hbs_text : ∀ x ∈ bs, isTextBlock x = true := fun x hx => htext x (by simp [hx])
      have hjoin : (b :: bs).flatten ++ rest = b ++ (bs.flatten ++ rest) := by
        simp [List.flatten_cons]
      rw [hjoin]
      simp only [scanBlocksAux]
      rw [List.take_left' hb]
      have hbne : ¬(b = []) := by
        intro h
        rw [h] at hb
        simp at hb
      rw [if_neg hbne, if_pos (htext b (by simp))]
      rw [List.drop_left' hb]
      rw [ih f rest (by simpa using hfuel) hbs_len hbs_text hstop]
      simp only [Prod.mk.injEq, List.cons.injEq, true_and]
      rw [hb]
      simp only [List.length_cons]
      ring

theorem scanBlocks_spec (blocks : List (List Nat)) (rest : List Nat)
    (hlen : ∀ b ∈ blocks, b.length = 3200)
    (htext : ∀ b ∈ blocks, isTextBlock b = true)
    (hstop : rest.take 3200 = [] ∨ isTextBlock (rest.take 3200) = false) :
    scanBlocks (blocks.flatten ++ rest) = (blocks, 3200 * blocks.length) := by
  unfold scanBlocks
  apply scanBlocksAux_spec blocks _ rest _ hlen htext hstop
  rw [List.length_append, flatten_length_uniform blocks hlen]
  omega

/-- C6: a 3200-byte block read after the fixed 3600-byte region is
classified as an extended textual header iff every byte is printable ASCII
(0x20-0x7E) or CR/LF, and the first failing block terminates the scan: with
any number of valid text blocks followed by a block containing byte 0x00 at
any position, the scanner accepts exactly the prefix of text blocks. -/
theorem extended_header_scan_classification
    (block : List Nat) (blocks : List (List Nat)) (bad rest : List Nat)
    (hlen : ∀ b ∈ blocks, b.length = 3200)
    (htext : ∀ b ∈ blocks, isTextBlock b = true)
    (hbadlen : bad.length = 3200)
    (i : Nat) (hi : i < 3200) (hzero : bad.getD i 1 = 0) :
    (isTextBlock block = true ↔
      ∀ x ∈ block, (32 ≤ x ∧ x ≤ 126) ∨ x = 10 ∨ x = 13)
    ∧ scanBlocks (blocks.flatten ++ (bad ++ rest)) = (blocks, 3200 * blocks.length) := by
  constructor
  · simp only [isTextBlock, isTextByte, List.all_eq_true]
    constructor
    · intro h x hx
      have := h x hx
      simp only [Bool.or_eq_true, Bool.and_eq_true, decide_eq_true_eq, beq_iff_eq] at this
      tauto
    · intro h x hx
      have := h x hx
      simp only [Bool.or_eq_true, Bool.and_eq_true, decide_eq_true_eq, beq_iff_eq]
      tauto
  · have hmem : (0 : Nat) ∈ bad := by
      have hlt : i < bad.length := by omega
      have : bad.getD i 1 = bad[i] := List.getD_eq_getElem bad 1 hlt
      rw [this] at hzero
      rw [← hzero]
      exact List.getElem_mem hlt
    have hbadtext : isTextBlock bad = false := by
      rw [← Bool.not_eq_true]
      simp only [isTextBlock, List.all_eq_true]
      intro hall
      have := hall 0 hmem
      simp [isTextByte] at this
    apply scanBlocks_spec blocks (bad ++ rest) hlen htext
    right
    rw [List.take_left' hbadlen]
    exact hbadtext

set_option maxRecDepth 100000 in
/-- Witness for C6 at one text block followed by an all-zero block. -/
theorem extended_header_scan_classification_witness :
    (isTextBlock [] = true ↔
      ∀ x ∈ ([] : List Nat), (32 ≤ x ∧ x ≤ 126) ∨ x = 10 ∨ x = 13)
    ∧ scanBlocks ([textBlockA].flatten ++ (zeroBlock ++ []))
        = ([textBlockA], 3200 * [textBlockA].length) :=
  extended_header_scan_classification [] [textBlockA] zeroBlock []
    (by intro b hb; rw [List.mem_singleton] at hb; rw [hb, textBlockA, List.length_replicate])
    (by intro b hb; rw [List.mem_singleton] at hb; rw [hb]; decide)
    (by rw [zeroBlock, List.length_replicate])
    0 (by decide) (by decide)

set_option maxRecDepth 100000 in
/-- C7 counterexample: two files whose extended-header regions consume
different byte counts (100 vs 200 bytes of accepted text) produce identical
return values of `seismo_segy_read_extended_textual_headers` — the function
returns only the normalized text, so the consumed byte count cannot be part
of the return value, refuting the claim that both are returned. -/
theorem extended_headers_bytecount_not_returned :
    seismo_segy_read_extended_textual_headers c7_fileB
      = seismo_segy_read_extended_textual_headers c7_fileC
    ∧ extendedHeadersByteSize c7_fileB = 100
    ∧ extendedHeadersByteSize c7_fileC = 200
    ∧ (100 : Nat) ≠ 200 := by
  refine ⟨by decide, by decide, by decide, by decide⟩

theorem foldl_append_norm (g : List Char → List Char) :
    ∀ (l : List (List Char)) (acc : List Char),
      l.foldl (fun acc h => acc ++ g h ++ ['\x0a']) acc
        = acc ++ (l.map (fun h => g h ++ ['\x0a'])).flatten := by
  intro l
  induction l with
  | nil => intro acc; simp
  | cons x xs ih =>
    intro acc
    simp only [List.foldl_cons, List.map_cons, List.flatten_cons]
    rw [ih]
    simp [List.append_assoc]

/-- C7 (amended): for every file made of a 3600-byte header region, text
blocks and a terminating remainder, the scanner returns a single string —
the in-order concatenation of the accepted blocks, each decoded, stripped,
CRLF-normalized to LF and newline-terminated; the consumed byte count is
computed in the `bytesize` local but is not returned. -/
theorem extended_headers_return_amended
    (pre : List Nat) (blocks : List (List Nat)) (rest : List Nat)
    (hpre : pre.length = 3600)
    (hlen : ∀ b ∈ blocks, b.length = 3200)
    (htext : ∀ b ∈ blocks, isTextBlock b = true)
    (hstop : rest.take 3200 = [] ∨ isTextBlock (rest.take 3200) = false) :
    seismo_segy_read_extended_textual_headers (pre ++ (blocks.flatten ++ rest))
      = (blocks.map (fun b => replaceCRLF (pyStrip (decodeAscii b)) ++ ['\x0a'])).flatten
    ∧ extendedHeadersByteSize (pre ++ (blocks.flatten ++ rest))
        = 3200 * blocks.length := by
  have hdrop : (pre ++ (blocks.flatten ++ rest)).drop 3600 = blocks.flatten ++ rest :=
    List.drop_left' hpre
  have hscan := scanBlocks_spec blocks rest hlen htext hstop
  constructor
  · simp only [seismo_segy_read_extended_textual_headers, hdrop, hscan]
    rw [foldl_append_norm replaceCRLF (blocks.map (fun b => pyStrip (decodeAscii b))) []]
    simp only [List.nil_append, List.map_map]
    rfl
  · simp only [extendedHeadersByteSize, hdrop, hscan]

set_option maxRecDepth 100000 in
/-- Witness for C7 (amended) at a concrete file with one text block. -/
theorem extended_headers_return_amended_witness :
    seismo_segy_read_extended_textual_headers
        (List.replicate 3600 0 ++ ([textBlockA].flatten ++ []))
      = ([textBlockA].map (fun b => replaceCRLF (pyStrip (decodeAscii b)) ++ ['\x0a'])).flatten
    ∧ extendedHeadersByteSize (List.replicate 3600 0 ++ ([textBlockA].flatten ++ []))
        = 3200 * [textBlockA].length :=
  extended_headers_return_amended (List.replicate 3600 0) [textBlockA] []
    (by rw [List.length_replicate])
    (by intro b hb; rw [List.mem_singleton] at hb; rw [hb, textBlockA, List.length_replicate])
    (by intro b hb; rw [List.mem_singleton] at hb; rw [hb]; decide)
    (Or.inl (by decide))

/-- C4: if an access to field `name` on a lazy trace-header view returns
value `v` and view state `h2` (reading the buffer `reads` times), then a
second access to the same field on `h2` returns the same value and the same
state with zero buffer reads — each field is decoded from the buffer at most
once and served from the cache afterwards. -/
theorem lazy_header_second_access_cached (h : LazyTraceHeaderAttribDict)
    (name : String) (v : Int) (h2 : LazyTraceHeaderAttribDict) (reads : Nat)
    (hacc : lazyGetItem h name = some (v, h2, reads)) :
    lazyGetItem h2 name = some (v, h2, 0) := by
  unfold lazyGetItem at hacc
  cases hl : lookupAttrib h.attribs name with
  | some v0 =>
    rw [hl] at hacc
    simp only [Option.some.injEq, Prod.mk.injEq] at hacc
    obtain ⟨rfl, rfl, rfl⟩ := hacc
    unfold lazyGetItem
    rw [hl]
  | none =>
    rw [hl] at hacc
    cases hf : TRACE_HEADER_FORMAT.find? (fun spec => spec.name == name) with
    | none =>
      rw [hf] at hacc
      cases hacc
    | some spec =>
      rw [hf] at hacc
      simp only [Option.some.injEq, Prod.mk.injEq] at hacc
      obtain ⟨hv, hh2, hr⟩ := hacc
      have hname : spec.name = name := by
        have := List.find?_some hf
        simpa using this
      subst hh2
      unfold lazyGetItem
      simp only [lookupAttrib, hname]
      simp [hv]

set_option maxRecDepth 10000 in
/-- Witness for C4: first access decodes `source_measurement_unit` from the
buffer (one read), second access is served from the cache (zero reads). -/
theorem lazy_header_second_access_cached_witness :
    lazyGetItem c4_header "source_measurement_unit"
      = some (0, c4_header_after, 1)
    ∧ lazyGetItem c4_header_after "source_measurement_unit"
      = some (0, c4_header_after, 0) :=
  ⟨by decide,
   lazy_header_second_access_cached c4_header "source_measurement_unit"
     0 c4_header_after 1 (by decide)⟩

theorem validateTraces_fails (valid_dtype : Dtype) (l : List TraceIn)
    (h : ∃ t ∈ l, t.dtype ≠ valid_dtype ∨ MAX_INTERVAL_IN_SECONDS < t.delta) :
    ∃ e, validateTraces valid_dtype l = some e := by
  induction l with
  | nil => simp at h
  | cons t rest ih =>
    obtain ⟨t0, ht0mem, ht0⟩ := h
    unfold validateTraces
    by_cases hd : t.dtype ≠ valid_dtype
    · exact ⟨WriteError.dtypeMismatch, by rw [if_pos hd]⟩
    · rw [if_neg hd]
      by_cases hi : MAX_INTERVAL_IN_SECONDS < t.delta
      · exact ⟨WriteError.intervalTooLarge, by rw [if_pos hi]⟩
      · rw [if_neg hi]
        apply ih
        rcases List.mem_cons.mp ht0mem with rfl | hmem
        · push_neg at hd
          rcases ht0 with hbad | hbad
          · exact absurd hd hbad
          · exact absurd hbad hi
        · exact ⟨t0, hmem, ht0⟩

/-- C8: if any trace's dtype disagrees with the chosen data encoding, or
any trace's sample interval exceeds the 16-bit microsecond range
(delta > 0.065535 s), or any trace has more than 32767 samples, then
`_write_segy` raises before reaching the single write call — the output
file is neither created nor modified. -/
theorem write_segy_validates_before_write (s : StreamIn) (data_encoding : Option Int)
    (h : ∃ t ∈ s.traces,
        MAX_NUMBER_OF_SAMPLES < t.npts
        ∨ MAX_INTERVAL_IN_SECONDS < t.delta
        ∨ DATA_SAMPLE_FORMAT_CODE_DTYPE (chosenEncoding s data_encoding)
            ≠ some t.dtype) :
    ∃ e, _write_segy s data_encoding = WriteOutcome.error e := by
  unfold _write_segy
  by_cases hany : s.traces.any (fun t => decide (MAX_NUMBER_OF_SAMPLES < t.npts)) = true
  · rw [if_pos hany]
    exact ⟨WriteError.tooManySamples, rfl⟩
  · rw [if_neg hany]
    by_cases henc : data_encoding.any (fun d => decide (d ∉ VALID_FORMATS)) = true
    · rw [if_pos henc]
      exact ⟨WriteError.invalidEncoding, rfl⟩
    · rw [if_neg henc]
      cases hdict : DATA_SAMPLE_FORMAT_CODE_DTYPE (chosenEncoding s data_encoding) with
      | none => exact ⟨WriteError.encodingLookupFailed, rfl⟩
      | some valid_dtype =>
        have hnpts : ∀ t ∈ s.traces, ¬(MAX_NUMBER_OF_SAMPLES < t.npts) := by
          rw [Bool.not_eq_true, List.any_eq_false] at hany
          intro t ht
          have := hany t ht
          simpa using this
        have hviol : ∃ t ∈ s.traces,
            t.dtype ≠ valid_dtype ∨ MAX_INTERVAL_IN_SECONDS < t.delta := by
          obtain ⟨t, htmem, ht⟩ := h
          refine ⟨t, htmem, ?_⟩
          rcases ht with hbad | hbad | hbad
          · exact absurd hbad (hnpts t htmem)
          · exact Or.inr hbad
          · rw [hdict] at hbad
            left
            intro heq
            apply hbad
            rw [heq]
        obtain ⟨e, he⟩ := validateTraces_fails valid_dtype s.traces hviol
        exact ⟨e, by simp [he]⟩

/-- Witness for C8 at a stream whose only trace has 40000 samples. -/
theorem write_segy_validates_before_write_witness :
    ∃ e, _write_segy c8_stream none = WriteOutcome.error e :=
  write_segy_validates_before_write c8_stream none
    ⟨⟨40000, Dtype.float32, 0⟩, by simp [c8_stream], Or.inl (by decide)⟩

/-- C9: deep-copying a lazy header view allocates a fresh buffer reference
holding the same bytes, copies the byte-order marker and the cache, and is
independent of the original: writing through the copy's reference is not
observable through the original's reference and vice versa. -/
theorem lazy_header_deepcopy_independent (st : BufferStore) (o : LazyHeaderObj)
    (hvalid : o.headerRef < st.bufs.length) :
    ((lazyHeaderDeepcopy st o).2.headerRef ≠ o.headerRef)
    ∧ readBuf (lazyHeaderDeepcopy st o).1 (lazyHeaderDeepcopy st o).2.headerRef
        = readBuf st o.headerRef
    ∧ (lazyHeaderDeepcopy st o).2.endian = o.endian
    ∧ (lazyHeaderDeepcopy st o).2.attribs = o.attribs
    ∧ (∀ b, readBuf (writeBuf (lazyHeaderDeepcopy st o).1
            (lazyHeaderDeepcopy st o).2.headerRef b) o.headerRef
          = readBuf st o.headerRef)
    ∧ (∀ b, readBuf (writeBuf (lazyHeaderDeepcopy st o).1 o.headerRef b)
            (lazyHeaderDeepcopy st o).2.headerRef
          = readBuf st o.headerRef) := by
  unfold lazyHeaderDeepcopy readBuf writeBuf
  simp only
  refine ⟨by omega, ?_, trivial, trivial, ?_, ?_⟩
  · rw [List.getD_eq_getElem?_getD, List.getElem?_append_right (Nat.le_refl _)]
    simp
  · intro b
    rw [List.getD_eq_getElem?_getD, List.getElem?_set_ne (by omega)]
    rw [List.getElem?_append_left hvalid]
    rw [List.getD_eq_getElem?_getD]
  · intro b
    rw [List.getD_eq_getElem?_getD, List.getElem?_set_ne (by omega)]
    rw [List.getElem?_append_right (Nat.le_refl _)]
    simp only [Nat.sub_self]
    simp

/-- Witness for C9 at a concrete one-buffer store. -/
theorem lazy_header_deepcopy_independent_witness :
    ((lazyHeaderDeepcopy c9_store c9_obj).2.headerRef ≠ c9_obj.headerRef)
    ∧ readBuf (lazyHeaderDeepcopy c9_store c9_obj).1
          (lazyHeaderDeepcopy c9_store c9_obj).2.headerRef
        = readBuf c9_store c9_obj.headerRef
    ∧ (lazyHeaderDeepcopy c9_store c9_obj).2.endian = c9_obj.endian
    ∧ (lazyHeaderDeepcopy c9_store c9_obj).2.attribs = c9_obj.attribs
    ∧ (∀ b, readBuf (writeBuf (lazyHeaderDeepcopy c9_store c9_obj).1
            (lazyHeaderDeepcopy c9_store c9_obj).2.headerRef b) c9_obj.headerRef
          = readBuf c9_store c9_obj.headerRef)
    ∧ (∀ b, readBuf (writeBuf (lazyHeaderDeepcopy c9_store c9_obj).1 c9_obj.headerRef b)
            (lazyHeaderDeepcopy c9_store c9_obj).2.headerRef
          = readBuf c9_store c9_obj.headerRef) :=
  lazy_header_deepcopy_independent c9_store c9_obj (by decide)

theorem foldl_splitStep (stream : List ObsPyTrace) :
    ∀ a b c : List ObsPyTrace,
      stream.foldl splitStep (a, b, c)
        = (a ++ stream.filter (fun t => t.source_measurement_unit == 512),
           b ++ stream.filter (fun t => t.source_measurement_unit == 768),
           c ++ stream.filter (fun t => t.source_measurement_unit == 1024)) := by
  induction stream with
  | nil => intro a b c; simp
  | cons t rest ih =>
    intro a b c
    simp only [List.foldl_cons, List.filter_cons]
    by_cases h512 : t.source_measurement_unit = 512
    · rw [show splitStep (a, b, c) t = (a ++ [t], b, c) by
        simp [splitStep, h512]]
      rw [ih]
      simp [h512, List.append_assoc]
    · by_cases h768 : t.source_measurement_unit = 768
      · rw [show splitStep (a, b, c) t = (a, b ++ [t], c) by
          simp [splitStep, h512, h768]]
        rw [ih]
        simp [h512, h768, List.append_assoc]
      · by_cases h1024 : t.source_measurement_unit = 1024
        · rw [show splitStep (a, b, c) t = (a, b, c ++ [t]) by
            simp [splitStep, h512, h768, h1024]]
          rw [ih]
          simp [h512, h768, h1024, List.append_assoc]
        · rw [show splitStep (a, b, c) t = (a, b, c) by
            simp [splitStep, h512, h768, h1024]]
          rw [ih]
          simp [h512, h768, h1024]

theorem splitComponents_eq_filters (stream : List ObsPyTrace) :
    splitComponents stream
      = (stream.filter (fun t => t.source_measurement_unit == 512),
         stream.filter (fun t => t.source_measurement_unit == 768),
         stream.filter (fun t => t.source_measurement_unit == 1024)) := by
  unfold splitComponents
  rw [foldl_splitStep stream [] [] []]
  simp

/-- C10: `seismo_read_segy_` returns exactly three streams; a trace is in
the first, second or third stream iff it occurs in the file and its
`source_measurement_unit` is 512, 768 or 1024 respectively, and a trace
with any other value appears in none of them — it is silently dropped. -/
theorem read_segy_split_components (stream : List ObsPyTrace) (t : ObsPyTrace) :
    (seismo_read_segy_result stream).length = 3
    ∧ (t ∈ (seismo_read_segy_result stream).getD 0 []
        ↔ t ∈ stream ∧ t.source_measurement_unit = 512)
    ∧ (t ∈ (seismo_read_segy_result stream).getD 1 []
        ↔ t ∈ stream ∧ t.source_measurement_unit = 768)
    ∧ (t ∈ (seismo_read_segy_result stream).getD 2 []
        ↔ t ∈ stream ∧ t.source_measurement_unit = 1024)
    ∧ (t.source_measurement_unit ≠ 512 → t.source_measurement_unit ≠ 768 →
        t.source_measurement_unit ≠ 1024 →
        ∀ s ∈ seismo_read_segy_result stream, t ∉ s) := by
  have hsplit := splitComponents_eq_filters stream
  unfold seismo_read_segy_result
  rw [hsplit]
  simp only [List.length_cons, List.length_nil, List.getD_cons_zero, List.getD_cons_succ]
  refine ⟨trivial, ?_, ?_, ?_, ?_⟩
  · simp [List.mem_filter]
  · simp [List.mem_filter]
  · simp [List.mem_filter]
  · intro h512 h768 h1024 s hs
    simp only [List.mem_cons, List.mem_singleton, List.not_mem_nil] at hs
    rcases hs with rfl | rfl | rfl | hfalse
    · simp [List.mem_filter, h512]
    · simp [List.mem_filter, h768]
    · simp [List.mem_filter, h1024]
    · exact absurd hfalse (by simp)

/-- Witness for C10: a trace with `source_measurement_unit = 99` is read
but lands in no component stream. -/
theorem read_segy_split_components_witness :
    (seismo_read_segy_result c10_stream).length = 3
    ∧ ((⟨99⟩ : ObsPyTrace) ∈ (seismo_read_segy_result c10_stream).getD 0 []
        ↔ (⟨99⟩ : ObsPyTrace) ∈ c10_stream
          ∧ (⟨99⟩ : ObsPyTrace).source_measurement_unit = 512)
    ∧ ((⟨99⟩ : ObsPyTrace) ∈ (seismo_read_segy_result c10_stream).getD 1 []
        ↔ (⟨99⟩ : ObsPyTrace) ∈ c10_stream
          ∧ (⟨99⟩ : ObsPyTrace).source_measurement_unit = 768)
    ∧ ((⟨99⟩ : ObsPyTrace) ∈ (seismo_read_segy_result c10_stream).getD 2 []
        ↔ (⟨99⟩ : ObsPyTrace) ∈ c10_stream
          ∧ (⟨99⟩ : ObsPyTrace).source_measurement_unit = 1024)
    ∧ ((⟨99⟩ : ObsPyTrace).source_measurement_unit ≠ 512 →
        (⟨99⟩ : ObsPyTrace).source_measurement_unit ≠ 768 →
        (⟨99⟩ : ObsPyTrace).source_measurement_unit ≠ 1024 →
        ∀ s ∈ seismo_read_segy_result c10_stream, (⟨99⟩ : ObsPyTrace) ∉ s) :=
  read_segy_split_components c10_stream ⟨99⟩
